import Mathlib

/-!
Shallow embedding of the zenspace procedural audio engine (src/index.tsx),
covering the theme catalog, the `ZenAudioEngine` class (constructor,
`setTheme`, `start`, `playNote`, `scheduleNextNote`, `stop`) and the
timer/automation effects those methods perform.

Numbers are modelled as `ℚ` (times in the units the source uses: audio-clock
seconds for envelopes, milliseconds for `setTimeout` delays).  JavaScript
`Math.random()` draws are passed in as explicit `ℚ` parameters assumed to lie
in `[0, 1)` where that matters.  Audio-node side effects are recorded as an
explicit action trace, and `setTimeout` handles as natural numbers.
-/

/-- Timbre kinds, from the `type` field of `ThemePreset` in src/index.tsx. -/
inductive TimbreType
  | piano
  | bell
  | pluck
  | pad
  | wood
  deriving DecidableEq, Repr

/-- The `ThemePreset` interface of src/index.tsx.  `ttype` embeds the `type`
field (a reserved word in Lean). -/
structure ThemePreset where
  name : String
  ttype : TimbreType
  scale : List ℚ
  filterFreq : Option ℚ := none
  decay : ℚ
  delayTime : ℚ
  feedback : ℚ
  probability : ℚ
  deriving DecidableEq, Repr

/- The `NOTES` frequency table (Hz) of src/index.tsx. -/
namespace NOTES

def C3 : ℚ := 130.81
def D3 : ℚ := 146.83
def E3 : ℚ := 164.81
def F3 : ℚ := 174.61
def G3 : ℚ := 196.00
def A3 : ℚ := 220.00
def B3 : ℚ := 246.94
def C4 : ℚ := 261.63
def Db4 : ℚ := 277.18
def D4 : ℚ := 293.66
def Eb4 : ℚ := 311.13
def E4 : ℚ := 329.63
def F4 : ℚ := 349.23
def Gb4 : ℚ := 369.99
def G4 : ℚ := 392.00
def Ab4 : ℚ := 415.30
def A4 : ℚ := 440.00
def Bb4 : ℚ := 466.16
def B4 : ℚ := 493.88
def C5 : ℚ := 523.25
def D5 : ℚ := 587.33
def E5 : ℚ := 659.25
def G5 : ℚ := 783.99
def A5 : ℚ := 880.00
def C6 : ℚ := 1046.50

end NOTES

/-- The static theme catalog `THEMES` of src/index.tsx (10 entries). -/
def THEMES : List ThemePreset :=
  [ { name := "空山 (Empty Mountain)", ttype := .bell,
      scale := [NOTES.C3, NOTES.G3, NOTES.C4, NOTES.D4, NOTES.E4, NOTES.G4],
      decay := 4.0, delayTime := 0.6, feedback := 0.4, probability := 0.8 },
    { name := "夜雨 (Night Rain)", ttype := .pluck,
      scale := [NOTES.C4, NOTES.Eb4, NOTES.F4, NOTES.G4, NOTES.Bb4, NOTES.C5],
      decay := 0.8, delayTime := 0.25, feedback := 0.2, probability := 0.9 },
    { name := "竹林 (Bamboo Forest)", ttype := .wood,
      scale := [NOTES.E3, NOTES.G3, NOTES.A3, NOTES.B3, NOTES.D4, NOTES.E4],
      filterFreq := some 800, decay := 1.2, delayTime := 0.4, feedback := 0.3,
      probability := 0.7 },
    { name := "流水 (Flowing Water)", ttype := .piano,
      scale := [NOTES.G4, NOTES.A4, NOTES.C5, NOTES.D5, NOTES.E5, NOTES.G5],
      decay := 2.0, delayTime := 0.3, feedback := 0.5, probability := 0.9 },
    { name := "晨鐘 (Morning Bell)", ttype := .bell,
      scale := [NOTES.C3, NOTES.G3, NOTES.C4],
      decay := 6.0, delayTime := 1.0, feedback := 0.6, probability := 0.4 },
    { name := "雲遊 (Cloud Wandering)", ttype := .pad,
      scale := [NOTES.C4, NOTES.D4, NOTES.E4, NOTES.Gb4, NOTES.G4, NOTES.A4, NOTES.B4],
      decay := 5.0, delayTime := 0.8, feedback := 0.7, probability := 0.5 },
    { name := "古寺 (Ancient Temple)", ttype := .wood,
      scale := [NOTES.C3, NOTES.Db4, NOTES.F4, NOTES.G4, NOTES.Bb4],
      decay := 2.5, delayTime := 0.5, feedback := 0.4, probability := 0.6 },
    { name := "清風 (Clear Breeze)", ttype := .piano,
      scale := [NOTES.F3, NOTES.G3, NOTES.A3, NOTES.C4, NOTES.D4, NOTES.F4],
      decay := 3.5, delayTime := 0.5, feedback := 0.3, probability := 0.7 },
    { name := "映月 (Moon Reflection)", ttype := .bell,
      scale := [NOTES.E4, NOTES.G4, NOTES.A4, NOTES.B4, NOTES.D5, NOTES.E5],
      decay := 3.0, delayTime := 0.7, feedback := 0.5, probability := 0.6 },
    { name := "归途 (The Return)", ttype := .pad,
      scale := [NOTES.C3, NOTES.E3, NOTES.G3, NOTES.B3, NOTES.C4],
      decay := 4.5, delayTime := 0.5, feedback := 0.4, probability := 0.5 } ]

/-- JavaScript's `%` on integers: the remainder truncated toward zero
(`-1 % 10 === -1` in JS, unlike Lean's Euclidean `%`). -/
def jsRem (a b : Int) : Int := Int.tmod a b

/-- JavaScript array indexing `xs[i]`: `undefined` (here `none`) for a
negative or out-of-range index, the element otherwise. -/
def jsArrayGet {α : Type} (xs : List α) (i : Int) : Option α :=
  if 0 ≤ i then xs.get? i.toNat else none

/-- The catalog lookup `THEMES[themeIndex % THEMES.length]` performed by
`ZenAudioEngine.setTheme` (src/index.tsx line 122). -/
def jsGetTheme (i : Int) : Option ThemePreset :=
  jsArrayGet THEMES (jsRem i (THEMES.length : Int))

/-- One Web Audio `AudioParam` automation event, as scheduled by the engine:
`setValueAtTime`, `linearRampToValueAtTime`, `exponentialRampToValueAtTime`. -/
inductive AutoEvent
  | setVal (v t : ℚ)
  | linRamp (v t : ℚ)
  | expRamp (v t : ℚ)
  deriving DecidableEq, Repr

def AutoEvent.val : AutoEvent → ℚ
  | .setVal v _ => v
  | .linRamp v _ => v
  | .expRamp v _ => v

def AutoEvent.time : AutoEvent → ℚ
  | .setVal _ t => t
  | .linRamp _ t => t
  | .expRamp _ t => t

/-- The computed `AudioParam.value` readback at time `t`, given the held value
`cur` (last settled at time `curT`) and the remaining scheduled events in
chronological order.  A linear ramp whose end time is still in the future
interpolates from the previous event; an exponential ramp's mid-curve value is
not rational, so it is modelled as holding the previous value until the ramp
ends (the engine never reads `.value` mid-exponential-ramp: only the master
gain is read back, and it only ever carries `setVal`/`linRamp` events). -/
def valueAtAux (cur curT : ℚ) : List AutoEvent → ℚ → ℚ
  | [], _ => cur
  | .setVal v te :: rest, t => if te ≤ t then valueAtAux v te rest t else cur
  | .linRamp v te :: rest, t =>
      if te ≤ t then valueAtAux v te rest t
      else if curT < t ∧ curT < te then
        cur + (v - cur) * ((t - curT) / (te - curT))
      else cur
  | .expRamp v te :: rest, t => if te ≤ t then valueAtAux v te rest t else cur

/-- `param.value` at time `t` for a gain param created with the Web Audio
default value 1 (the engine immediately schedules `setVal 0` on it). -/
def valueAt (evs : List AutoEvent) (t : ℚ) : ℚ := valueAtAux 1 0 evs t

/-- Audio-resource side effects performed by engine methods, recorded as a
trace.  An inert engine (no `AudioContext`) must produce an empty trace. -/
inductive AudioAction
  | ctxResume
  /-- `start`'s construction of the master gain / compressor / delay /
  feedback chain, carrying the delay time and feedback gain it was
  initialized with (src/index.tsx lines 135-157). -/
  | buildChain (delayT fb : ℚ)
  /-- `setTheme`'s `delayNode.delayTime.linearRampToValueAtTime(v, t)`. -/
  | delayRamp (v t : ℚ)
  /-- `setTheme`'s `delayFeedback.gain.linearRampToValueAtTime(v, t)`. -/
  | feedbackRamp (v t : ℚ)
  /-- `playNote`'s creation of per-note oscillator/gain/filter nodes. -/
  | noteNodes
  /-- `stop`'s `masterGain.gain.cancelScheduledValues(t)`. -/
  | gainCancel (t : ℚ)
  /-- `stop`'s `masterGain.gain.setValueAtTime(v, t)`. -/
  | gainSet (v t : ℚ)
  /-- `stop`'s `masterGain.gain.linearRampToValueAtTime(v, t)`. -/
  | gainRamp (v t : ℚ)
  deriving DecidableEq, Repr

/-- Errors a method can throw: `typeError` for a property access on
`undefined`, `platformError` for a platform failure creating audio nodes. -/
inductive JsError
  | typeError
  | platformError
  deriving DecidableEq, Repr

/-- Oscillator wave types used by the engine. -/
inductive OscType
  | sine
  | triangle
  deriving DecidableEq, Repr

/-- The transient node graph one `playNote` call builds (src/index.tsx lines
170-226): chosen frequency, carrier type, optional FM modulator (bell),
optional lowpass cutoff (wood), the amplitude-envelope events on the per-note
gain, and the oscillator start/stop times. -/
structure NoteSpec where
  freq : Option ℚ
  osc : OscType
  modFreq : Option ℚ
  modEnv : List AutoEvent
  modStopT : Option ℚ
  filterCutoff : Option ℚ
  env : List AutoEvent
  oscStartT : ℚ
  oscStopT : ℚ
  deriving DecidableEq, Repr

/-- The mutable state of a `ZenAudioEngine` instance.  `hasCtx` is whether the
constructor obtained an `AudioContext`; `now` is `ctx.currentTime`;
`masterGain` is `none` until `start` creates the node, then holds the gain
param's scheduled events; `delayPresent` is whether `delayNode`/`delayFeedback`
exist; `intervalId` is the stored `setTimeout` handle (never reset by the
code); `currentTheme` is `none` when the field holds JS `undefined`;
`pending` is the set of not-yet-fired timers; `nextId` generates timer
handles (starting at 1, as browser timer ids are positive). -/
structure EngineState where
  hasCtx : Bool
  suspended : Bool
  now : ℚ
  masterGain : Option (List AutoEvent)
  delayPresent : Bool
  intervalId : Option Nat
  currentTheme : Option ThemePreset
  pending : List Nat
  nextId : Nat
  deriving DecidableEq, Repr

/-- The `ZenAudioEngine` constructor (src/index.tsx lines 114-119):
`hasAudio` is whether the platform offers an `AudioContext` class.  Field
initializers: `intervalId = null`, `currentTheme = THEMES[0]`. -/
def construct (hasAudio : Bool) : EngineState :=
  { hasCtx := hasAudio, suspended := false, now := 0, masterGain := none,
    delayPresent := false, intervalId := none,
    currentTheme := THEMES.get? 0, pending := [], nextId := 1 }

/-- The audio clock advancing between method calls. -/
def setNow (st : EngineState) (t : ℚ) : EngineState := { st with now := t }

/-- `ZenAudioEngine.setTheme` (src/index.tsx lines 121-128).  The assignment
`this.currentTheme = THEMES[themeIndex % THEMES.length]` never throws (it may
store `undefined`); the live delay-parameter ramp runs only when
`delayNode && delayFeedback && ctx` are all truthy, and reading
`this.currentTheme.delayTime` there throws a TypeError when the stored theme
is `undefined`. -/
def setTheme (st : EngineState) (i : Int) :
    Except JsError (EngineState × List AudioAction) :=
  let nt := jsGetTheme i
  let st1 := { st with currentTheme := nt }
  if st1.delayPresent && st1.hasCtx then
    match nt with
    | none => .error .typeError
    | some th =>
        .ok (st1, [.delayRamp th.delayTime (st1.now + 1),
                   .feedbackRamp th.feedback (st1.now + 1)])
  else
    .ok (st1, [])

/-- `theme.filterFreq || 400` (JS `||`: 0 is falsy). -/
def jsFilterDefault (f : Option ℚ) : ℚ :=
  match f with
  | some v => if v = 0 then 400 else v
  | none => 400

/-- The transient node graph `playNote` builds once past its guards
(src/index.tsx lines 170-226), as a function of the active theme, the audio
clock `now`, and the pitch-selection random draw `rPitch`. -/
def mkNoteSpec (theme : ThemePreset) (now rPitch : ℚ) : NoteSpec :=
  let foq := jsArrayGet theme.scale (Int.floor (rPitch * theme.scale.length))
  { freq := foq
    osc := match theme.ttype with
      | .bell => .sine
      | .wood => .triangle
      | .pad => .triangle
      | _ => .sine
    modFreq := match theme.ttype, foq with
      | .bell, some f => some (f * 2.5)
      | _, _ => none
    modEnv := match theme.ttype, foq with
      | .bell, some f =>
          [.setVal (f * 0.5) now, .expRamp 0.01 (now + theme.decay)]
      | _, _ => []
    modStopT := match theme.ttype with
      | .bell => some (now + theme.decay)
      | _ => none
    filterCutoff := match theme.ttype with
      | .wood => some (jsFilterDefault theme.filterFreq)
      | _ => none
    env := if theme.ttype = .pad then
        [.setVal 0 now, .linRamp 0.1 (now + 2), .linRamp 0 (now + theme.decay)]
      else
        [.setVal 0 now, .linRamp 0.2 (now + 0.02),
         .expRamp 0.001 (now + theme.decay)]
    oscStartT := now
    oscStopT := now + theme.decay + 1 }

/-- `ZenAudioEngine.playNote` (src/index.tsx lines 162-227).  Returns early
(no note) without an `AudioContext` or master gain; throws a TypeError if
`currentTheme` holds `undefined` (reading `theme.probability`); skips the tick
when the gate draw exceeds the theme's probability; `pOk = false` models the
platform throwing while creating the note's nodes. -/
def playNote (st : EngineState) (rGate rPitch : ℚ) (pOk : Bool) :
    Except JsError (Option NoteSpec) :=
  if st.hasCtx = false then .ok none
  else match st.masterGain with
  | none => .ok none
  | some _ =>
      match st.currentTheme with
      | none => .error .typeError
      | some theme =>
          if theme.probability < rGate then .ok none
          else if pOk = false then .error .platformError
          else .ok (some (mkNoteSpec theme st.now rPitch))

/-- `ZenAudioEngine.scheduleNextNote` (src/index.tsx lines 229-235): runs
`playNote` (any exception propagates — there is no try/catch), then derives
the gap from the *current* theme's timbre (4000 for pad, 2000 otherwise),
computes `nextTime = rTime * gap + 1000`, and arms a fresh `setTimeout`,
storing its handle in `intervalId`.  Returns the new state, the audio-action
trace, the note (if any) and the armed delay. -/
def scheduleNextNote (st : EngineState) (rGate rPitch rTime : ℚ) (pOk : Bool) :
    Except JsError (EngineState × List AudioAction × Option NoteSpec × ℚ) :=
  match playNote st rGate rPitch pOk with
  | .error e => .error e
  | .ok ns =>
      match st.currentTheme with
      | none => .error .typeError
      | some th =>
          let gap : ℚ := if th.ttype = .pad then 4000 else 2000
          let nextTime := rTime * gap + 1000
          let tid := st.nextId
          .ok ({ st with intervalId := some tid,
                         pending := st.pending ++ [tid],
                         nextId := tid + 1 },
               (match ns with | some _ => [.noteNodes] | none => []),
               ns, nextTime)

/-- `ZenAudioEngine.start` (src/index.tsx lines 130-160): returns immediately
without an `AudioContext`; resumes a suspended context; creates a fresh master
gain with a `0 → 0.5 over 3s` fade-in; builds the compressor/delay/feedback
chain initialized from `currentTheme.delayTime`/`feedback` (a TypeError if the
stored theme is `undefined`); then calls `scheduleNextNote`. -/
def start (st : EngineState) (rGate rPitch rTime : ℚ) (pOk : Bool) :
    Except JsError (EngineState × List AudioAction × Option NoteSpec × Option ℚ) :=
  if st.hasCtx = false then .ok (st, [], none, none)
  else
    let resumeActs : List AudioAction :=
      if st.suspended then [.ctxResume] else []
    match st.currentTheme with
    | none => .error .typeError
    | some th =>
        let st1 := { st with
          suspended := false,
          masterGain := some [.setVal 0 st.now, .linRamp 0.5 (st.now + 3)],
          delayPresent := true }
        match scheduleNextNote st1 rGate rPitch rTime pOk with
        | .error e => .error e
        | .ok (st2, acts, ns, d) =>
            .ok (st2, resumeActs ++ .buildChain th.delayTime th.feedback :: acts,
                 ns, some d)

/-- The opening line of `ZenAudioEngine.stop`:
`if (this.intervalId) clearTimeout(this.intervalId)` (a JS number 0 would be
falsy, hence the `tid ≠ 0` guard; handles start at 1; the field is never reset
to null). -/
def clearTimerStep (st : EngineState) : EngineState :=
  match st.intervalId with
  | some tid => if tid ≠ 0 then { st with pending := st.pending.erase tid } else st
  | none => st

/-- `ZenAudioEngine.stop` (src/index.tsx lines 237-245): clears the stored
timer handle if truthy; returns if there is no context or no master gain;
otherwise cancels every master-gain event scheduled at or after `now`, reads
the gain's (post-cancellation) current value, pins it with `setValueAtTime`,
and ramps linearly to 0 over 3 seconds.  Never throws. -/
def stop (st : EngineState) : EngineState × List AudioAction :=
  let st1 := clearTimerStep st
  if st1.hasCtx = false then (st1, [])
  else match st1.masterGain with
  | none => (st1, [])
  | some evs =>
      let now := st1.now
      let evsC := evs.filter (fun e => e.time < now)
      let v := valueAt evsC now
      ({ st1 with masterGain := some (evsC ++ [.setVal v now, .linRamp 0 (now + 3)]) },
       [.gainCancel now, .gainSet v now, .gainRamp 0 (now + 3)])

/-- A pending `setTimeout` callback firing: the browser removes the timer from
the pending set, then runs `scheduleNextNote`.  An exception thrown inside the
callback escapes to the event loop (the engine installs no handler): state
mutations made before the throw are kept, but no new timer is armed. -/
def fireTimer (st : EngineState) (tid : Nat) (rGate rPitch rTime : ℚ)
    (pOk : Bool) : EngineState × List AudioAction × Option NoteSpec × Option ℚ :=
  let st0 := { st with pending := st.pending.erase tid }
  match scheduleNextNote st0 rGate rPitch rTime pOk with
  | .error _ => (st0, [], none, none)
  | .ok (st1, acts, ns, d) => (st1, acts, ns, some d)

/-- A public-method call on the engine: `setTheme`, `start`, `stop`, or a
scheduler-driven `playNote`, with its random draws and platform outcome. -/
inductive MethodCall
  | mSetTheme (i : Int)
  | mStart (rGate rPitch rTime : ℚ) (pOk : Bool)
  | mStop
  | mPlayNote (rGate rPitch : ℚ) (pOk : Bool)

/-- Dispatch one method call, returning the new state and the audio-resource
actions it performed. -/
def exec (st : EngineState) : MethodCall → Except JsError (EngineState × List AudioAction)
  | .mSetTheme i => setTheme st i
  | .mStart rG rP rT pOk => (start st rG rP rT pOk).map (fun r => (r.1, r.2.1))
  | .mStop => .ok (stop st)
  | .mPlayNote rG rP pOk =>
      (playNote st rG rP pOk).map
        (fun ns => (st, match ns with | some _ => [.noteNodes] | none => []))

/-- The first catalog entry (the engine's initial `currentTheme`). -/
def theme0 : ThemePreset :=
  { name := "空山 (Empty Mountain)", ttype := .bell,
    scale := [NOTES.C3, NOTES.G3, NOTES.C4, NOTES.D4, NOTES.E4, NOTES.G4],
    decay := 4.0, delayTime := 0.6, feedback := 0.4, probability := 0.8 }

/-- A running engine: constructed with audio, clock at 10, `start` completed
(gate draw 1 skipped the first note), one armed tick with handle 1. -/
def runningState : EngineState :=
  { hasCtx := true, suspended := false, now := 10,
    masterGain := some [.setVal 0 10, .linRamp 0.5 13],
    delayPresent := true, intervalId := some 1,
    currentTheme := THEMES.get? 0, pending := [1], nextId := 2 }

/-- The engine after `stop()` ended the running session. -/
def stoppedState : EngineState := (stop runningState).1

/-! ## Additional concrete states used by the theorems -/

/-- The second catalog entry, used by concrete re-theming scenarios. -/
def theme1 : ThemePreset :=
  { name := "夜雨 (Night Rain)", ttype := .pluck,
    scale := [NOTES.C4, NOTES.Eb4, NOTES.F4, NOTES.G4, NOTES.Bb4, NOTES.C5],
    decay := 0.8, delayTime := 0.25, feedback := 0.2, probability := 0.9 }

/-- The state a fresh engine reaches when `start` runs at clock 0 with theme
`th` active (first gate draw skipping the note). -/
def freshStarted (th : ThemePreset) : EngineState :=
  { hasCtx := true
    suspended := false
    now := 0
    masterGain := some [.setVal 0 0, .linRamp 0.5 3]
    delayPresent := true
    intervalId := some 1
    currentTheme := some th
    pending := [1]
    nextId := 2 }

/-- The engine state a `start` call produced (its fallback is unused on the
success traces below). -/
def afterStart
    (r : Except JsError (EngineState × List AudioAction × Option NoteSpec × Option ℚ))
    (fallback : EngineState) : EngineState :=
  match r with
  | .ok (s, _, _, _) => s
  | .error _ => fallback

/-- The audio actions a `start` call performed. -/
def startActs
    (r : Except JsError (EngineState × List AudioAction × Option NoteSpec × Option ℚ)) :
    List AudioAction :=
  match r with
  | .ok (_, a, _, _) => a
  | .error _ => []

/-- Double-start trace: the engine after one `start` from fresh (gate draw 1
skips the note). -/
def dsS1 : EngineState := afterStart (start (construct true) 1 0 0 true) (construct true)

/-- Double-start trace: the engine after a second `start` with no intervening
`stop`. -/
def dsS2 : EngineState := afterStart (start dsS1 1 0 0 true) dsS1

/-! ## General lemmas -/

theorem jsArrayGet_mem {α : Type} {xs : List α} {i : Int} {x : α}
    (h : jsArrayGet xs i = some x) : x ∈ xs := by
  unfold jsArrayGet at h
  split at h
  · exact List.get?_mem h
  · exact absurd h (by simp)

theorem jsGetTheme_mem {i : Int} {t : ThemePreset}
    (h : jsGetTheme i = some t) : t ∈ THEMES :=
  jsArrayGet_mem h

theorem theme0_mem : theme0 ∈ THEMES := by simp [theme0, THEMES]

theorem runningState_reachable :
    start (setNow (construct true) 10) 1 0 0 true =
      .ok (runningState, [AudioAction.buildChain 0.6 0.4], none, some 1000) := by
  norm_num [start, setNow, construct, scheduleNextNote, playNote, runningState,
    THEMES]

/-- Nonnegative held value and nonnegative event targets keep the computed
`AudioParam.value` nonnegative (linear interpolation stays between its
endpoints). -/
theorem valueAtAux_nonneg (evs : List AutoEvent) (cur curT t : ℚ)
    (hc : 0 ≤ cur) (he : ∀ e ∈ evs, 0 ≤ e.val) :
    0 ≤ valueAtAux cur curT evs t := by
  induction evs generalizing cur curT with
  | nil => exact hc
  | cons e rest ih =>
      have hv : 0 ≤ e.val := he e (List.mem_cons_self e rest)
      have hrest : ∀ x ∈ rest, 0 ≤ x.val := fun x hx => he x (List.mem_cons_of_mem e hx)
      cases e with
      | setVal v te =>
          simp only [valueAtAux]
          split
          · exact ih v te (by simpa [AutoEvent.val] using hv) hrest
          · exact hc
      | linRamp v te =>
          simp only [valueAtAux]
          split
          · exact ih v te (by simpa [AutoEvent.val] using hv) hrest
          · split
            · rename_i hnle hlt
              have h1 : curT < t := hlt.1
              have h2 : curT < te := hlt.2
              have hv' : 0 ≤ v := by simpa [AutoEvent.val] using hv
              have hd : (0:ℚ) < te - curT := by linarith
              have ha0 : 0 ≤ (t - curT) / (te - curT) :=
                div_nonneg (by linarith) (le_of_lt hd)
              have hlt' : t < te := lt_of_not_le hnle
              have ha1 : (t - curT) / (te - curT) ≤ 1 := by
                rw [div_le_one hd]; linarith
              nlinarith [mul_nonneg ha0 hv']
            · exact hc
      | expRamp v te =>
          simp only [valueAtAux]
          split
          · exact ih v te (by simpa [AutoEvent.val] using hv) hrest
          · exact hc

theorem valueAt_nonneg (evs : List AutoEvent) (t : ℚ)
    (he : ∀ e ∈ evs, 0 ≤ e.val) : 0 ≤ valueAt evs t :=
  valueAtAux_nonneg evs 1 0 t (by norm_num) he

theorem clearTimerStep_fields (st : EngineState) :
    (clearTimerStep st).hasCtx = st.hasCtx ∧
      (clearTimerStep st).masterGain = st.masterGain ∧
      (clearTimerStep st).now = st.now ∧
      (clearTimerStep st).intervalId = st.intervalId := by
  unfold clearTimerStep
  split
  · split <;> exact ⟨rfl, rfl, rfl, rfl⟩
  · exact ⟨rfl, rfl, rfl, rfl⟩

theorem stop_masterGain (st : EngineState) (evs : List AutoEvent)
    (hc : st.hasCtx = true) (hm : st.masterGain = some evs) :
    (stop st).1.masterGain =
      some (evs.filter (fun e => e.time < st.now) ++
        [.setVal (valueAt (evs.filter (fun e => e.time < st.now)) st.now) st.now,
         .linRamp 0 (st.now + 3)]) ∧
    (stop st).1.hasCtx = true ∧ (stop st).1.now = st.now := by
  obtain ⟨h1, h2, h3, _⟩ := clearTimerStep_fields st
  simp only [stop, h1, h2, h3, hc, hm]
  norm_num

theorem jsArrayGet_isSome {α : Type} (xs : List α) (i : Int)
    (h0 : 0 ≤ i) (hl : i < xs.length) :
    ∃ x, jsArrayGet xs i = some x ∧ x ∈ xs := by
  unfold jsArrayGet
  rw [if_pos h0]
  have hlt : i.toNat < xs.length := by omega
  exact ⟨_, List.get?_eq_get hlt, List.get_mem _ _ _⟩

theorem playNote_gate (st : EngineState) (th : ThemePreset) (rG rP : ℚ)
    (hc : st.hasCtx = true) (hm : st.masterGain.isSome = true)
    (hth : st.currentTheme = some th) :
    playNote st rG rP true =
      .ok (if th.probability < rG then none else some (mkNoteSpec th st.now rP)) := by
  obtain ⟨g, hg2⟩ := Option.isSome_iff_exists.mp hm
  simp only [playNote, hc, hg2, hth]
  split
  · rename_i hfalse
    exact absurd hfalse (by simp)
  · split <;> rfl

theorem playNote_some_inv (st : EngineState) (th : ThemePreset) (rG rP : ℚ)
    (ns : NoteSpec) (hth : st.currentTheme = some th)
    (hns : playNote st rG rP true = .ok (some ns)) :
    ns = mkNoteSpec th st.now rP := by
  simp only [playNote, hth] at hns
  split at hns
  · simp at hns
  · split at hns
    · simp at hns
    · split at hns
      · simp at hns
      · simp at hns
        exact hns.symm

/-! ## Claim C1 -/

/-- Claim C1 counterexample: at index -1 the JS remainder is -1, so the
catalog lookup yields undefined (not a valid descriptor), and on a running
engine (delay node present) `setTheme(-1)` throws a TypeError reading
`delayTime` of undefined. -/
theorem zen_C1_cex :
    jsGetTheme (-1) = none ∧
      setTheme runningState (-1) = .error .typeError := by
  constructor
  · decide
  · have h : jsGetTheme (-1) = none := by decide
    simp [setTheme, h, runningState]

/-- Claim C1 (amended): for every NON-NEGATIVE integer theme index i, the
catalog lookup `THEMES[i % THEMES.length]` resolves to a valid ThemeDescriptor
from the catalog and `setTheme` never throws; for a negative index the JS
remainder is negative and the lookup yields undefined (see the
counterexample). -/
theorem zen_C1_amended (i : Int) (st : EngineState) (h : 0 ≤ i) :
    (∃ th, jsGetTheme i = some th ∧ th ∈ THEMES) ∧
      (setTheme st i).toOption.isSome = true := by
  obtain ⟨n, rfl⟩ := Int.eq_ofNat_of_zero_le h
  have hlt : n % 10 < THEMES.length := by
    have h10 : THEMES.length = 10 := rfl
    rw [h10]; exact Nat.mod_lt _ (by norm_num)
  have hrem : jsRem (n : ℤ) (THEMES.length : ℤ) = ((n % 10 : ℕ) : ℤ) := rfl
  have hsome : jsGetTheme (n : ℤ) = some (THEMES.get ⟨n % 10, hlt⟩) := by
    unfold jsGetTheme
    rw [hrem]
    unfold jsArrayGet
    rw [if_pos (by positivity)]
    have htn : ((n % 10 : ℕ) : ℤ).toNat = n % 10 := by omega
    rw [htn]
    exact List.get?_eq_get hlt
  refine ⟨⟨_, hsome, List.get_mem _ _ _⟩, ?_⟩
  simp only [setTheme, hsome]
  split <;> rfl

/-- Witness: the amended claim at index 17 on a fresh engine. -/
theorem zen_C1_amended_witness :
    (∃ th, jsGetTheme 17 = some th ∧ th ∈ THEMES) ∧
      (setTheme (construct true) 17).toOption.isSome = true :=
  zen_C1_amended 17 (construct true) (by norm_num)

/-! ## Claim C2 -/

/-- Claim C2 counterexample: on a running engine whose armed tick (handle 1)
fires with a platform failure inside `playNote` (gate draw 0 passes the
probability gate, node creation throws), the tick is NOT contained: no next
tick is armed (`pending` is empty afterwards), so the self-rescheduling loop
stops.  The stale handle remains in `intervalId`. -/
theorem zen_C2_cex :
    (fireTimer runningState 1 0 0 0 false).1.pending = [] ∧
      (fireTimer runningState 1 0 0 0 false).1.intervalId = some 1 := by
  norm_num [fireTimer, scheduleNextNote, playNote, runningState, THEMES]

/-- Claim C2 (amended): `scheduleNextNote` has no try/catch, so a `playNote`
failure is NOT contained: the exception propagates out of the tick before
`setTimeout` is reached and no next tick is armed (first conjunct); the loop
re-arms only when `playNote` completes without throwing (second conjunct). -/
theorem zen_C2_amended (st : EngineState) (tid : Nat) (rGate rPitch rTime : ℚ)
    (th : ThemePreset) (hc : st.hasCtx = true) (hm : st.masterGain.isSome = true)
    (hth : st.currentTheme = some th) (hg : rGate ≤ th.probability) :
    fireTimer st tid rGate rPitch rTime false =
      ({ st with pending := st.pending.erase tid }, [], none, none) ∧
    fireTimer st tid rGate rPitch rTime true =
      ({ st with
          pending := st.pending.erase tid ++ [st.nextId],
          intervalId := some st.nextId,
          nextId := st.nextId + 1 },
       [.noteNodes], some (mkNoteSpec th st.now rPitch),
       some (rTime * (if th.ttype = .pad then 4000 else 2000) + 1000)) := by
  obtain ⟨g, hg2⟩ := Option.isSome_iff_exists.mp hm
  have hnot : ¬ th.probability < rGate := not_lt.mpr hg
  constructor
  · simp [fireTimer, scheduleNextNote, playNote, hc, hg2, hth, hnot]
  · simp [fireTimer, scheduleNextNote, playNote, hc, hg2, hth, hnot]

/-- Witness: the amended claim on the concrete running engine. -/
theorem zen_C2_amended_witness :
    fireTimer runningState 1 0 0 0 false =
      ({ runningState with pending := runningState.pending.erase 1 }, [], none, none) ∧
    fireTimer runningState 1 0 0 0 true =
      ({ runningState with
          pending := runningState.pending.erase 1 ++ [runningState.nextId],
          intervalId := some runningState.nextId,
          nextId := runningState.nextId + 1 },
       [.noteNodes], some (mkNoteSpec theme0 runningState.now 0),
       some ((0:ℚ) * (if theme0.ttype = .pad then 4000 else 2000) + 1000)) :=
  zen_C2_amended runningState 1 0 0 0 theme0 rfl rfl rfl (by norm_num [theme0])

/-! ## Claim C3 -/

/-- Claim C3: `stop()` is safe in every engine state.  First conjunct: on a
freshly constructed engine (either platform), `stop` is a no-op that throws
nothing (it is total) and leaves no scheduled tick pending.  Second conjunct:
on any engine whose master gain carries only nonnegative scheduled values, a
second `stop` at any later clock value `t2` first cancels every master-gain
event scheduled at or after `t2` and appends exactly a `setValueAtTime` at the
gain's current (post-cancellation) value followed by a linear ramp to 0 — and
that current value is nonnegative, so the restarted fade never ramps upward. -/
theorem zen_C3_stop_safe (b : Bool) (st : EngineState) (evs : List AutoEvent) (t2 : ℚ)
    (hc : st.hasCtx = true) (hm : st.masterGain = some evs)
    (he : ∀ e ∈ evs, 0 ≤ e.val) :
    (stop (construct b) = (construct b, []) ∧ (stop (construct b)).1.pending = []) ∧
    ∃ evs1, (stop st).1.masterGain = some evs1 ∧
      (∀ e ∈ evs1, 0 ≤ e.val) ∧
      (stop (setNow (stop st).1 t2)).1.masterGain =
        some (evs1.filter (fun e => e.time < t2) ++
          [.setVal (valueAt (evs1.filter (fun e => e.time < t2)) t2) t2,
           .linRamp 0 (t2 + 3)]) ∧
      0 ≤ valueAt (evs1.filter (fun e => e.time < t2)) t2 := by
  constructor
  · constructor
    · cases b <;> simp [stop, clearTimerStep, construct]
    · cases b <;> simp [stop, clearTimerStep, construct]
  · obtain ⟨hmg, hcs, hnow⟩ := stop_masterGain st evs hc hm
    have hvalC : ∀ e ∈ evs.filter (fun e => e.time < st.now), 0 ≤ e.val :=
      fun e hme => he e (List.mem_of_mem_filter hme)
    have hv1nn : 0 ≤ valueAt (evs.filter (fun e => e.time < st.now)) st.now :=
      valueAt_nonneg _ _ hvalC
    have he1 : ∀ e ∈ evs.filter (fun e => e.time < st.now) ++
        [AutoEvent.setVal (valueAt (evs.filter (fun e => e.time < st.now)) st.now) st.now,
         AutoEvent.linRamp 0 (st.now + 3)], 0 ≤ e.val := by
      intro e hme
      rcases List.mem_append.mp hme with h | h
      · exact hvalC e h
      · simp only [List.mem_cons, List.mem_singleton] at h
        rcases h with rfl | rfl | h
        · exact hv1nn
        · simp [AutoEvent.val]
        · simp at h
    have hc2 : (setNow (stop st).1 t2).hasCtx = true := hcs
    have hm2 : (setNow (stop st).1 t2).masterGain =
        some (evs.filter (fun e => e.time < st.now) ++
          [AutoEvent.setVal (valueAt (evs.filter (fun e => e.time < st.now)) st.now) st.now,
           AutoEvent.linRamp 0 (st.now + 3)]) := by
      simpa [setNow] using hmg
    obtain ⟨hmg2, _, _⟩ := stop_masterGain (setNow (stop st).1 t2) _ hc2 hm2
    refine ⟨_, hmg, he1, ?_, ?_⟩
    · exact hmg2
    · exact valueAt_nonneg _ _ (fun e hme => he1 e (List.mem_of_mem_filter hme))

/-- Witness: stop-before-start on a fresh engine, and a double stop on the
running engine (first at clock 10, second at clock 20). -/
theorem zen_C3_stop_safe_witness :
    (stop (construct true) = (construct true, []) ∧ (stop (construct true)).1.pending = []) ∧
    ∃ evs1, (stop runningState).1.masterGain = some evs1 ∧
      (∀ e ∈ evs1, 0 ≤ e.val) ∧
      (stop (setNow (stop runningState).1 20)).1.masterGain =
        some (evs1.filter (fun e => e.time < 20) ++
          [.setVal (valueAt (evs1.filter (fun e => e.time < 20)) 20) 20,
           .linRamp 0 (20 + 3)]) ∧
      0 ≤ valueAt (evs1.filter (fun e => e.time < 20)) 20 :=
  zen_C3_stop_safe true runningState [.setVal 0 10, .linRamp 0.5 13] 20 rfl rfl
    (by intro e hme; fin_cases hme <;> norm_num [AutoEvent.val])

/-! ## Claim C4 -/

/-- Claim C4: with no `AudioContext` constructor available, engine
construction succeeds with a null context, and on any state of such an engine
every method — `start`, `stop`, `setTheme`, `playNote` — returns without
throwing and performs no audio-resource action; the null context is preserved,
so the engine stays inert across any call sequence. -/
theorem zen_C4_inert (st : EngineState) (c : MethodCall) (h : st.hasCtx = false) :
    (construct false).hasCtx = false ∧
    ∃ st', exec st c = .ok (st', []) ∧ st'.hasCtx = false := by
  refine ⟨rfl, ?_⟩
  cases c with
  | mSetTheme i =>
      refine ⟨{ st with currentTheme := jsGetTheme i }, ?_, h⟩
      simp [exec, setTheme, h]
  | mStart rG rP rT pOk =>
      exact ⟨st, by simp [exec, start, h, Except.map], h⟩
  | mStop =>
      obtain ⟨h1, _, _, _⟩ := clearTimerStep_fields st
      refine ⟨clearTimerStep st, ?_, h1.trans h⟩
      simp [exec, stop, h1, h]
  | mPlayNote rG rP pOk =>
      exact ⟨st, by simp [exec, playNote, h, Except.map], h⟩

/-- Witness: `stop` on the freshly constructed context-less engine. -/
theorem zen_C4_inert_witness :
    (construct false).hasCtx = false ∧
    ∃ st', exec (construct false) .mStop = .ok (st', []) ∧ st'.hasCtx = false :=
  zen_C4_inert (construct false) .mStop rfl

/-! ## Claim C5 -/

/-- Claim C5: on every scheduler tick the armed delay is exactly
`rTime * densityWindow + 1000` where `densityWindow` is 4000 when the
currently active theme's timbre is pad and 2000 otherwise; for a draw
`rTime ∈ [0,1)` the delay lies in `[1000, 1000 + densityWindow)` (within the
claimed closed interval); and `setTheme` installs the looked-up theme as the
active theme, so the window is re-derived from the new theme on the very next
tick. -/
theorem zen_C5_density (st : EngineState) (th : ThemePreset) (rG rP rT : ℚ)
    (hc : st.hasCtx = true) (hm : st.masterGain.isSome = true)
    (hth : st.currentTheme = some th) (h0 : 0 ≤ rT) (h1 : rT < 1) :
    (∃ st' acts ns, scheduleNextNote st rG rP rT true =
        .ok (st', acts, ns, rT * (if th.ttype = .pad then 4000 else 2000) + 1000)) ∧
    1000 ≤ rT * (if th.ttype = .pad then 4000 else 2000) + 1000 ∧
    rT * (if th.ttype = .pad then 4000 else 2000) + 1000 <
      1000 + (if th.ttype = .pad then 4000 else 2000) ∧
    (∀ i r, setTheme st i = .ok r → r.1.currentTheme = jsGetTheme i) := by
  obtain ⟨g, hg2⟩ := Option.isSome_iff_exists.mp hm
  refine ⟨?_, ?_, ?_, ?_⟩
  · rcases lt_or_le th.probability rG with hlt | hle
    · refine ⟨{ st with
          hasCtx := true, masterGain := some g, currentTheme := some th,
          intervalId := some st.nextId,
          pending := st.pending ++ [st.nextId],
          nextId := st.nextId + 1 }, [], none, ?_⟩
      simp [scheduleNextNote, playNote, hc, hg2, hth, hlt]
    · have hnot : ¬ th.probability < rG := not_lt.mpr hle
      refine ⟨{ st with
          hasCtx := true, masterGain := some g, currentTheme := some th,
          intervalId := some st.nextId,
          pending := st.pending ++ [st.nextId],
          nextId := st.nextId + 1 }, [.noteNodes], some (mkNoteSpec th st.now rP), ?_⟩
      simp [scheduleNextNote, playNote, hc, hg2, hth, hnot]
  · split <;> nlinarith
  · split <;> nlinarith
  · intro i r hr
    simp only [setTheme] at hr
    split at hr
    · split at hr
      · exact absurd hr (by simp)
      · rename_i th' hnt
        injection hr with h2
        subst h2
        simp [hnt]
    · injection hr with h2
      subst h2
      rfl

/-- Witness: the density formula on the running engine with draw 1/2. -/
theorem zen_C5_density_witness :
    (∃ st' acts ns, scheduleNextNote runningState 1 0 (1/2) true =
        .ok (st', acts, ns, (1/2 : ℚ) * (if theme0.ttype = .pad then 4000 else 2000) + 1000)) ∧
    1000 ≤ (1/2 : ℚ) * (if theme0.ttype = .pad then 4000 else 2000) + 1000 ∧
    (1/2 : ℚ) * (if theme0.ttype = .pad then 4000 else 2000) + 1000 <
      1000 + (if theme0.ttype = .pad then 4000 else 2000) ∧
    (∀ i r, setTheme runningState i = .ok r → r.1.currentTheme = jsGetTheme i) :=
  zen_C5_density runningState theme0 1 0 (1/2) rfl rfl rfl (by norm_num) (by norm_num)

/-! ## Claim C6 -/

/-- Claim C6: on a tick of a running engine, a note is produced iff the gate
draw is ≤ the active theme's trigger probability; and any produced note's
frequency is `scale[⌊rPitch·scale.length⌋]`, a member of the active theme's
scale (for a pitch draw in `[0,1)` and a non-empty scale). -/
theorem zen_C6_gate_scale (st : EngineState) (th : ThemePreset) (rG rP : ℚ)
    (hc : st.hasCtx = true) (hm : st.masterGain.isSome = true)
    (hth : st.currentTheme = some th) (hp0 : 0 ≤ rP) (hp1 : rP < 1)
    (hs : th.scale ≠ []) :
    ((∃ ns, playNote st rG rP true = .ok (some ns)) ↔ rG ≤ th.probability) ∧
    ∀ ns, playNote st rG rP true = .ok (some ns) →
      ns.freq = jsArrayGet th.scale (Int.floor (rP * th.scale.length)) ∧
      ∃ f, ns.freq = some f ∧ f ∈ th.scale := by
  have hkey := playNote_gate st th rG rP hc hm hth
  have hidx0 : 0 ≤ Int.floor (rP * th.scale.length) := by
    apply Int.floor_nonneg.mpr
    positivity
  have hlen : 0 < th.scale.length := List.length_pos.mpr hs
  have hidx1 : Int.floor (rP * th.scale.length) < th.scale.length := by
    apply Int.floor_lt.mpr
    push_cast
    have : (0:ℚ) < th.scale.length := by exact_mod_cast hlen
    nlinarith
  constructor
  · constructor
    · rintro ⟨ns, hns⟩
      by_contra hnot
      rw [hkey, if_pos (not_le.mp hnot)] at hns
      simp at hns
    · intro hle
      exact ⟨_, by rw [hkey, if_neg (not_lt.mpr hle)]⟩
  · intro ns hns
    rw [hkey] at hns
    by_cases hg : th.probability < rG
    · rw [if_pos hg] at hns; simp at hns
    · rw [if_neg hg] at hns
      have hns' : ns = mkNoteSpec th st.now rP := by
        injection hns with h2
        exact (Option.some.injEq _ _ ▸ h2).symm
      subst hns'
      obtain ⟨f, hf, hfm⟩ := jsArrayGet_isSome th.scale _ hidx0 hidx1
      refine ⟨rfl, f, ?_, hfm⟩
      show jsArrayGet th.scale (Int.floor (rP * th.scale.length)) = some f
      exact hf

/-- Witness: the probability gate and scale membership on the running engine
(gate draw 1/10, pitch draw 1/3, first catalog theme). -/
theorem zen_C6_gate_scale_witness :
    ((∃ ns, playNote runningState (1/10) (1/3) true = .ok (some ns)) ↔
      (1/10 : ℚ) ≤ theme0.probability) ∧
    ∀ ns, playNote runningState (1/10) (1/3) true = .ok (some ns) →
      ns.freq = jsArrayGet theme0.scale (Int.floor ((1/3 : ℚ) * theme0.scale.length)) ∧
      ∃ f, ns.freq = some f ∧ f ∈ theme0.scale :=
  zen_C6_gate_scale runningState theme0 (1/10) (1/3) rfl rfl rfl
    (by norm_num) (by norm_num) (by simp [theme0])

/-! ## Claim C7 -/

/-- Claim C7: any note produced on a tick carries exactly the source's
amplitude envelope: for a non-pad timbre, `setValueAtTime 0`, a linear ramp to
0.2 over 20ms, then an exponential ramp toward 0.001 at the theme's decay, the
oscillator stopping at decay + 1s; for the pad timbre, 0 → 0.1 linearly over
2s, then a linear ramp to 0 at the decay time (the oscillator stop is the same
line of code for every timbre). -/
theorem zen_C7_envelope (st : EngineState) (th : ThemePreset) (rG rP : ℚ)
    (ns : NoteSpec) (hth : st.currentTheme = some th)
    (hns : playNote st rG rP true = .ok (some ns)) :
    (th.ttype ≠ .pad →
      ns.env = [.setVal 0 st.now, .linRamp 0.2 (st.now + 0.02),
                .expRamp 0.001 (st.now + th.decay)] ∧
      ns.oscStopT = st.now + th.decay + 1) ∧
    (th.ttype = .pad →
      ns.env = [.setVal 0 st.now, .linRamp 0.1 (st.now + 2),
                .linRamp 0 (st.now + th.decay)] ∧
      ns.oscStopT = st.now + th.decay + 1) := by
  have hmk := playNote_some_inv st th rG rP ns hth hns
  subst hmk
  constructor
  · intro hne
    exact ⟨by simp [mkNoteSpec, hne], rfl⟩
  · intro heq
    exact ⟨by simp [mkNoteSpec, heq], rfl⟩

/-- Witness: the envelope of a concrete triggered note (running engine, gate
draw 1/10, pitch draw 0). -/
theorem zen_C7_envelope_witness :
    (theme0.ttype ≠ .pad →
      (mkNoteSpec theme0 runningState.now 0).env =
        [.setVal 0 runningState.now, .linRamp 0.2 (runningState.now + 0.02),
         .expRamp 0.001 (runningState.now + theme0.decay)] ∧
      (mkNoteSpec theme0 runningState.now 0).oscStopT =
        runningState.now + theme0.decay + 1) ∧
    (theme0.ttype = .pad →
      (mkNoteSpec theme0 runningState.now 0).env =
        [.setVal 0 runningState.now, .linRamp 0.1 (runningState.now + 2),
         .linRamp 0 (runningState.now + theme0.decay)] ∧
      (mkNoteSpec theme0 runningState.now 0).oscStopT =
        runningState.now + theme0.decay + 1) :=
  zen_C7_envelope runningState theme0 (1/10) 0 (mkNoteSpec theme0 runningState.now 0) rfl
    (by rw [playNote_gate runningState theme0 (1/10) 0 rfl rfl rfl,
            if_neg (by norm_num [theme0])])

/-! ## Claim C8 -/

/-- Claim C8: every ThemeDescriptor in the static catalog satisfies the
construction-time invariants: non-empty scale, decay > 0, feedback in [0, 1),
delay time in [0, 5], trigger probability in [0, 1]. -/
theorem zen_C8_catalog_invariants :
    ∀ th ∈ THEMES, th.scale ≠ [] ∧ 0 < th.decay ∧
      0 ≤ th.feedback ∧ th.feedback < 1 ∧
      0 ≤ th.delayTime ∧ th.delayTime ≤ 5 ∧
      0 ≤ th.probability ∧ th.probability ≤ 1 := by
  intro th hth
  fin_cases hth <;>
    refine ⟨by simp, by norm_num, by norm_num, by norm_num, by norm_num,
      by norm_num, by norm_num, by norm_num⟩

/-- Witness: the invariants instantiated at the first catalog theme. -/
theorem zen_C8_catalog_invariants_witness :
    theme0.scale ≠ [] ∧ 0 < theme0.decay ∧
      0 ≤ theme0.feedback ∧ theme0.feedback < 1 ∧
      0 ≤ theme0.delayTime ∧ theme0.delayTime ≤ 5 ∧
      0 ≤ theme0.probability ∧ theme0.probability ≤ 1 :=
  zen_C8_catalog_invariants theme0 theme0_mem

/-! ## Claim C9 -/

theorem jsGetTheme_one : jsGetTheme 1 = some theme1 := rfl

/-- Claim C9 counterexample: after a session ends (`stop`; no tick pending,
so the engine is stopped), `setTheme(1)` still touches audio nodes: the
delay node and feedback gain are never torn down, so it ramps
`delayTime → 0.25` and `feedback → 0.2` at clock 11 on the old session's
nodes, refuting "without touching any audio node" for the general stopped
state. -/
theorem zen_C9_cex :
    stoppedState.pending = [] ∧
    (setTheme stoppedState 1).toOption.map (fun r => r.2) =
      some [AudioAction.delayRamp 0.25 11, AudioAction.feedbackRamp 0.2 11] := by
  constructor
  · norm_num [stoppedState, stop, clearTimerStep, runningState, AutoEvent.time]
  · norm_num [setTheme, jsGetTheme_one, stoppedState, stop, clearTimerStep,
      runningState, AutoEvent.time, theme1]
    exact ⟨_, rfl⟩

/-- Claim C9 (amended): on a FRESH engine (before any start), `setTheme(i)`
with an in-range index does not throw, performs no audio action, and installs
theme i as the active theme; the following `start` then builds its chain from
theme i's delay time and feedback and keeps theme i active (so its scale,
timbre and decay drive the session).  After a prior session, `setTheme`
additionally ramps the still-connected delay node (see the counterexample). -/
theorem zen_C9_amended (i : Int) (th : ThemePreset) (rG rP rT : ℚ)
    (hth : jsGetTheme i = some th) :
    ∃ st1, setTheme (construct true) i = .ok (st1, []) ∧
      st1.currentTheme = some th ∧
      ∃ st2 acts ns d, start st1 rG rP rT true = .ok (st2, acts, ns, d) ∧
        AudioAction.buildChain th.delayTime th.feedback ∈ acts ∧
        st2.currentTheme = some th := by
  refine ⟨{ construct true with currentTheme := some th }, ?_, rfl, ?_⟩
  · simp [setTheme, construct, hth]
  · rcases lt_or_le th.probability rG with hlt | hle
    · refine ⟨freshStarted th,
        [.buildChain th.delayTime th.feedback], none,
        some (rT * (if th.ttype = .pad then 4000 else 2000) + 1000), ?_, ?_, rfl⟩
      · norm_num [start, scheduleNextNote, playNote, construct, freshStarted, hlt]
      · simp
    · have hnot : ¬ th.probability < rG := not_lt.mpr hle
      refine ⟨freshStarted th,
        [.buildChain th.delayTime th.feedback, .noteNodes],
        some (mkNoteSpec th 0 rP),
        some (rT * (if th.ttype = .pad then 4000 else 2000) + 1000), ?_, ?_, rfl⟩
      · norm_num [start, scheduleNextNote, playNote, construct, freshStarted, hnot]
      · simp

/-- Witness: `setTheme(1)` then `start` on a fresh engine uses theme 1. -/
theorem zen_C9_amended_witness :
    ∃ st1, setTheme (construct true) 1 = .ok (st1, []) ∧
      st1.currentTheme = some theme1 ∧
      ∃ st2 acts ns d, start st1 1 0 0 true = .ok (st2, acts, ns, d) ∧
        AudioAction.buildChain theme1.delayTime theme1.feedback ∈ acts ∧
        st2.currentTheme = some theme1 :=
  zen_C9_amended 1 theme1 1 0 0 jsGetTheme_one

/-! ## Claim C10 -/

/-- Claim C10: a second `start` with no intervening `stop` builds a second
master-gain/compressor/delay chain (`buildChain` is emitted again and a fresh
master-gain automation replaces the old) and arms a second independent tick:
after it, two timers are pending ([1, 2]) while `intervalId` holds only the
most recently armed handle (2); `stop` then cancels only that one, leaving
tick 1 pending — the single-pending-tick property no longer holds. -/
theorem zen_C10_double_start :
    dsS1.pending = [1] ∧ dsS1.intervalId = some 1 ∧
    startActs (start dsS1 1 0 0 true) = [.buildChain 0.6 0.4] ∧
    dsS2.masterGain = some [.setVal 0 0, .linRamp 0.5 3] ∧
    dsS2.pending = [1, 2] ∧ dsS2.intervalId = some 2 ∧
    (stop dsS2).1.pending = [1] := by
  refine ⟨?_, ?_, ?_, ?_, ?_, ?_, ?_⟩ <;>
    norm_num [dsS1, dsS2, afterStart, startActs, start, scheduleNextNote,
      playNote, construct, stop, clearTimerStep, THEMES, AutoEvent.time]
